import Mathlib

/-!
Verification of the GitHub trending scraper (src/main.js).

The scraper fetches the trending page for a language, extracts repository
records from the HTML rows, and prints them.  We embed the extraction
routine (`fetchTrendingRepos`, lines 51-75), the display routine
(`displayRepos`) and the orchestration (`main`) as pure Lean functions.

Modelling choices:
* A parsed markup document is the list of `article.Box-row` blocks in
  document order; each block (`Row`) carries the data the sub-selectors
  can reach: the optional title link (`h2 > a`, with its text and an
  optional `href` attribute), the concatenated text of the `p.col-9`
  matches, and the concatenated text of the stargazers links.  An empty
  cheerio selection has text `""`, which is how absent sub-elements enter
  the model.
* JavaScript string operations are embedded faithfully:
  `replace(/\s/g, "")` removes every JS whitespace character,
  `trim()` drops leading and trailing JS whitespace,
  template interpolation of `undefined` produces the text `"undefined"`.
* The network call is an oracle `FetchOutcome`: either the response body
  parsed into rows, or a thrown axios error carrying the optional HTTP
  status of `error.response` and `error.message`.
* Console activity is a list of `ConsoleEvent`s distinguishing the output
  stream (`console.log`) from the error stream (`console.error`).
-/

/-- The JS whitespace class matched by the regex `\s` (and stripped by
`String.prototype.trim`). -/
def jsWS (c : Char) : Bool :=
  let n := c.toNat
  (9 ≤ n && n ≤ 13) || n = 32 || n = 160 || n = 0x1680 ||
  (0x2000 ≤ n && n ≤ 0x200a) || n = 0x2028 || n = 0x2029 ||
  n = 0x202f || n = 0x205f || n = 0x3000 || n = 0xfeff

/-- `text.replace(/\s/g, "")` on the underlying character list: every JS
whitespace character is removed, internal ones included. -/
def removeWS (l : List Char) : List Char :=
  l.filter (fun c => !jsWS c)

/-- `text.replace(/\s/g, "")` as a `String` operation (main.js line 56). -/
def removeWSStr (s : String) : String :=
  ⟨removeWS s.data⟩

/-- `String.prototype.trim` on the underlying character list: drop the
longest whitespace prefix and suffix. -/
def trimList (l : List Char) : List Char :=
  (((l.dropWhile jsWS).reverse).dropWhile jsWS).reverse

/-- `text.trim()` as a `String` operation (main.js lines 60 and 63). -/
def jsTrimStr (s : String) : String :=
  ⟨trimList s.data⟩

/-- JS template interpolation of a value that may be `undefined`:
`` `${x}` `` renders `undefined` as the text `"undefined"`. -/
def jsTemplateOpt (o : Option String) : String :=
  match o with
  | some s => s
  | none => "undefined"

/-- The title link of a row: the `h2 > a` element, with its text content
and its `href` attribute (`none` when the attribute is absent, in which
case `attr` returns `undefined`). -/
structure TitleLink where
  text : String
  href : Option String
deriving DecidableEq, Repr

/-- One `article.Box-row` block, as reachable by the sub-selectors of
main.js lines 55-63.  `title = none` models a row with no `h2 > a` match
(an empty cheerio selection: its text is `""`, its attr is `undefined`).
`descText` and `starsText` are the raw `.text()` of the `p.col-9` and
stargazers-link selections (`""` when nothing matches). -/
structure Row where
  title : Option TitleLink
  descText : String
  starsText : String
deriving DecidableEq, Repr

/-- `titleElement.text()` (main.js line 56): the text of the title
selection, `""` for an empty selection. -/
def titleText (r : Row) : String :=
  match r.title with
  | some t => t.text
  | none => ""

/-- `titleElement.attr("href")` (main.js line 57): `undefined` (`none`)
when the selection is empty or the attribute is absent. -/
def titleHref (r : Row) : Option String :=
  match r.title with
  | some t => t.href
  | none => none

/-- One extracted repository record (main.js lines 66-71). -/
structure Repo where
  name : String
  url : String
  description : String
  stars : String
deriving DecidableEq, Repr

/-- The four fields computed for a row in main.js lines 55-63:
`repoName` strips all whitespace from the title text, `repoUrl` prefixes
the href with the absolute origin, `description` and `stars` trim the
sub-element texts. -/
def rowRecord (r : Row) : Repo where
  name := removeWSStr (titleText r)
  url := "https://github.com" ++ jsTemplateOpt (titleHref r)
  description := jsTrimStr r.descText
  stars := jsTrimStr r.starsText

/-- The body of the `each` callback (main.js lines 51-73): the record is
pushed only when `repoName` is truthy, i.e. non-empty. -/
def extractRow (r : Row) : Option Repo :=
  if removeWSStr (titleText r) = "" then none else some (rowRecord r)

/-- The extraction pass of `fetchTrendingRepos` (main.js lines 47-75):
visit the row blocks in document order, pushing one record per row whose
derived name is non-empty. -/
def extractRepos (rows : List Row) : List Repo :=
  rows.filterMap extractRow

/-- A console event, tagged with the stream it goes to: `out` is
`console.log`, `err` is `console.error`. -/
inductive ConsoleEvent where
  | out (s : String)
  | err (s : String)
deriving DecidableEq, Repr

/-- The outcome of the awaited `axios.get` call: a body parsed into row
blocks, or a thrown error with the optional status of `error.response`
and the `error.message` text. -/
inductive FetchOutcome where
  | success (rows : List Row)
  | failure (status : Option Nat) (message : String)
deriving DecidableEq, Repr

/-- The progress message logged at main.js line 37. -/
def buscandoMsg (language : String) : String :=
  "Buscando repositórios em alta para \x27" ++ language ++ "\x27..."

/-- The 404-specific message of main.js line 79. -/
def notFoundMsg (language : String) : String :=
  "Erro: A linguagem \"" ++ language ++ "\" não foi encontrada no GitHub Trending."

/-- The generic fetch-failure message of main.js line 81 (console.error
joins its two arguments with a space). -/
def genericErrMsg (message : String) : String :=
  "Erro ao buscar a página: " ++ message

/-- `fetchTrendingRepos` (main.js lines 35-85) given the outcome of the
network call: logs the progress line, then either extracts records from
the body, or catches the error, reporting the 404-specific message when
`error.response.status === 404` and the generic message otherwise, and
returns `null`. -/
def fetchTrendingRepos (language : String) (outcome : FetchOutcome) :
    List ConsoleEvent × Option (List Repo) :=
  let intro := ConsoleEvent.out (buscandoMsg language)
  match outcome with
  | .success rows => ([intro], some (extractRepos rows))
  | .failure status message =>
    if status = some 404 then
      ([intro, .err (notFoundMsg language)], none)
    else
      ([intro, .err (genericErrMsg message)], none)

/-- ANSI codes of main.js lines 22-28. -/
def colorReset : String := "\x1b[0m"

/-- ANSI bright code. -/
def colorBright : String := "\x1b[1m"

/-- ANSI cyan code. -/
def colorCyan : String := "\x1b[36m"

/-- ANSI yellow code. -/
def colorYellow : String := "\x1b[33m"

/-- ANSI green code. -/
def colorGreen : String := "\x1b[32m"

/-- The "nothing found" message of main.js line 93. -/
def nothingFoundMsg : String := "Nenhum repositório encontrado."

/-- The four lines printed per record in main.js lines 99-104.
`repo.description || ...` falls back to the placeholder when the
description is the empty (falsy) string. -/
def repoLines (index : Nat) (repo : Repo) : List ConsoleEvent :=
  [ .out (colorBright ++ toString (index + 1) ++ ". " ++ colorCyan ++
      repo.name ++ colorReset),
    .out ("   " ++ colorYellow ++ "★ " ++ repo.stars ++ " estrelas" ++
      colorReset),
    .out ("   " ++
      (if repo.description = "" then "Sem descrição." else repo.description)),
    .out ("   " ++ colorGreen ++ repo.url ++ colorReset ++ "\n") ]

/-- `displayRepos` (main.js lines 91-105): prints the nothing-found line
when the argument is `null`/falsy or the array is empty, otherwise the
header and the numbered list. -/
def displayRepos (reposArg : Option (List Repo)) : List ConsoleEvent :=
  match reposArg with
  | none => [.out nothingFoundMsg]
  | some repos =>
    if repos.length = 0 then
      [.out nothingFoundMsg]
    else
      .out ("\n--- Top " ++ toString repos.length ++
        " Repositórios em Alta ---\n") ::
      (repos.enum.flatMap fun p => repoLines p.1 p.2)

/-- `language.toLowerCase()` (main.js line 120). -/
def jsToLower (s : String) : String := ⟨s.data.map Char.toLower⟩

/-- The usage error printed to stderr at main.js line 115. -/
def usageErrMsg : String := "Erro: Por favor, especifique uma linguagem."

/-- The usage hint printed to stdout at main.js line 116. -/
def usageHintMsg : String := "Uso: node main.js <linguagem>"

/-- `!language` for `language = process.argv[2]`: truthy-check fails when
the argument is absent (`undefined`) or the empty string. -/
def argMissing (argv2 : Option String) : Bool :=
  match argv2 with
  | none => true
  | some s => s = ""

/-- The observable result of one run of `main`. -/
structure RunResult where
  events : List ConsoleEvent
  exitCode : Nat
  fetched : Bool
deriving DecidableEq, Repr

/-- `main` (main.js lines 110-125) given `process.argv[2]` and the fetch
oracle: a falsy language argument prints the usage messages and exits
with status 1 before any fetch; otherwise the language is lower-cased,
`fetchTrendingRepos` runs, and `displayRepos` runs only when its result
is truthy (a non-null array). -/
def mainRun (argv2 : Option String) (outcome : FetchOutcome) : RunResult :=
  if argMissing argv2 then
    { events := [.err usageErrMsg, .out usageHintMsg],
      exitCode := 1, fetched := false }
  else
    let language := jsToLower (argv2.getD "")
    let fetched := fetchTrendingRepos language outcome
    let dispEvents :=
      match fetched.2 with
      | some repos => displayRepos (some repos)
      | none => []
    { events := fetched.1 ++ dispEvents, exitCode := 0, fetched := true }

/-- A well-formed sample row: a title link with internal whitespace in its
text and a relative href, a description and a star count. -/
def sampleTitle : TitleLink :=
  { text := " foo / bar ", href := some "/foo/bar" }

/-- A sample row built from `sampleTitle`. -/
def sampleRow : Row :=
  { title := some sampleTitle, descText := "  A sample  description  ",
    starsText := " 1,234 " }

/-- A row with no title link at all. -/
def badRow : Row :=
  { title := none, descText := "orphan", starsText := "" }

/-- A row whose title link has text but no href attribute. -/
def noHrefTitle : TitleLink := { text := "baz/qux", href := none }

/-- A row built from `noHrefTitle`. -/
def noHrefRow : Row :=
  { title := some noHrefTitle, descText := "", starsText := "42" }

/-- A sample thrown axios error with a 500 response. -/
def err500 : FetchOutcome :=
  .failure (some 500) "Request failed with status code 500"

theorem extractRow_eq_some (r : Row) (h : removeWSStr (titleText r) ≠ "") :
    extractRow r = some (rowRecord r) := by
  simp [extractRow, h]

theorem extractRow_eq_none (r : Row) (h : removeWSStr (titleText r) = "") :
    extractRow r = none := by
  simp [extractRow, h]

theorem filterMap_extractRow_eq_map (rows : List Row)
    (h : ∀ r ∈ rows, extractRow r = some (rowRecord r)) :
    rows.filterMap extractRow = rows.map rowRecord := by
  induction rows with
  | nil => rfl
  | cons r rs ih =>
    rw [List.filterMap_cons, h r (by simp), List.map_cons,
      ih (fun x hx => h x (by simp [hx]))]

theorem removeWS_idem (l : List Char) : removeWS (removeWS l) = removeWS l := by
  simp [removeWS, List.filter_filter]

theorem removeWSStr_idem (s : String) :
    removeWSStr (removeWSStr s) = removeWSStr s :=
  congrArg String.mk (removeWS_idem s.data)

theorem all_takeWhile (p : α → Bool) (l : List α) :
    (l.takeWhile p).all p = true := by
  rw [List.all_eq_true]
  intro a ha
  exact List.mem_takeWhile_imp ha

theorem trim_decomp (l : List Char) :
    ∃ p q, l = p ++ trimList l ++ q ∧ p.all jsWS = true ∧ q.all jsWS = true := by
  refine ⟨l.takeWhile jsWS, ((l.dropWhile jsWS).reverse.takeWhile jsWS).reverse,
    ?_, all_takeWhile jsWS l, ?_⟩
  · conv_lhs => rw [← List.takeWhile_append_dropWhile (p := jsWS) (l := l)]
    rw [List.append_assoc]
    congr 1
    conv_lhs => rw [← List.reverse_reverse (l.dropWhile jsWS),
      ← List.takeWhile_append_dropWhile (p := jsWS) (l := (l.dropWhile jsWS).reverse)]
    rw [List.reverse_append]
    rfl
  · rw [List.all_eq_true]
    intro a ha
    rw [List.mem_reverse] at ha
    exact List.mem_takeWhile_imp ha

theorem head_dropWhile_not (p : α → Bool) (l : List α) (c : α)
    (h : (l.dropWhile p).head? = some c) : p c = false := by
  induction l with
  | nil => simp [List.dropWhile] at h
  | cons a l ih =>
    rw [List.dropWhile_cons] at h
    by_cases hp : p a
    · exact ih (by simpa [hp] using h)
    · simp [hp] at h
      subst h
      exact Bool.of_not_eq_true hp

theorem trim_getLast_not_ws (l : List Char) (c : Char)
    (h : (trimList l).getLast? = some c) : jsWS c = false := by
  unfold trimList at h
  rw [List.getLast?_reverse] at h
  exact head_dropWhile_not jsWS _ c h

theorem trim_head_not_ws (l : List Char) (c : Char)
    (h : (trimList l).head? = some c) : jsWS c = false := by
  have hsuff : (l.dropWhile jsWS).reverse.dropWhile jsWS <:+
      (l.dropWhile jsWS).reverse := List.dropWhile_suffix jsWS
  have hpre : trimList l <+: l.dropWhile jsWS := by
    have h2 := List.reverse_prefix.mpr hsuff
    rw [List.reverse_reverse] at h2
    exact h2
  obtain ⟨t, ht⟩ := hpre
  apply head_dropWhile_not jsWS l c
  rw [← ht, List.head?_append, h]
  rfl

theorem buscandoMsg_head (l : String) :
    (buscandoMsg l).data.head? = some 'B' := by
  have hA : "Buscando repositórios em alta para \x27".data =
      'B' :: "uscando repositórios em alta para \x27".data := rfl
  show ((("Buscando repositórios em alta para \x27" ++ l) ++
    "\x27...").data).head? = some 'B'
  rw [String.data_append, String.data_append, hA, List.cons_append,
    List.cons_append]
  rfl

theorem buscandoMsg_ne_nothingFound (l : String) :
    buscandoMsg l ≠ nothingFoundMsg := by
  intro h
  have h1 := buscandoMsg_head l
  rw [h] at h1
  have h2 : (nothingFoundMsg).data.head? = some 'N' := rfl
  rw [h2] at h1
  simp at h1

theorem notFoundMsg_take5 (l : String) :
    (notFoundMsg l).data.take 5 = ['E', 'r', 'r', 'o', ':'] := by
  have hA : "Erro: A linguagem \"".data =
      'E' :: 'r' :: 'r' :: 'o' :: ':' :: " A linguagem \"".data := rfl
  show ((("Erro: A linguagem \"" ++ l) ++
    "\" não foi encontrada no GitHub Trending.").data).take 5 = _
  rw [String.data_append, String.data_append, hA]
  simp [List.cons_append, List.take_succ_cons]

theorem genericErrMsg_take5 (m : String) :
    (genericErrMsg m).data.take 5 = ['E', 'r', 'r', 'o', ' '] := by
  have hA : "Erro ao buscar a página: ".data =
      'E' :: 'r' :: 'r' :: 'o' :: ' ' :: "ao buscar a página: ".data := rfl
  show (("Erro ao buscar a página: " ++ m).data).take 5 = _
  rw [String.data_append, hA]
  simp [List.cons_append, List.take_succ_cons]

theorem notFound_ne_generic (l m : String) :
    notFoundMsg l ≠ genericErrMsg m := by
  intro h
  have h5 : (notFoundMsg l).data.take 5 = (genericErrMsg m).data.take 5 := by
    rw [h]
  rw [notFoundMsg_take5, genericErrMsg_take5] at h5
  simp at h5

/-- Claim C1: for every markup whose row blocks each have a title link with
non-empty whitespace-stripped text, the extraction returns exactly one
record per row block, in document order (the image of `rowRecord` over the
row list). -/
theorem extract_returns_all_rows_in_document_order (rows : List Row)
    (h : ∀ r ∈ rows, ∃ t, r.title = some t ∧ removeWSStr t.text ≠ "") :
    (extractRepos rows).length = rows.length ∧
    extractRepos rows = rows.map rowRecord := by
  have hmap : extractRepos rows = rows.map rowRecord := by
    apply filterMap_extractRow_eq_map
    intro r hr
    obtain ⟨t, ht, hne⟩ := h r hr
    apply extractRow_eq_some
    simpa [titleText, ht] using hne
  exact ⟨by rw [hmap, List.length_map], hmap⟩

/-- Witness for C1 at a concrete one-row document. -/
theorem extract_returns_all_rows_in_document_order_witness :
    (extractRepos [sampleRow]).length = [sampleRow].length ∧
    extractRepos [sampleRow] = [sampleRow].map rowRecord :=
  extract_returns_all_rows_in_document_order [sampleRow] (by
    intro r hr
    rw [List.mem_singleton] at hr
    subst hr
    exact ⟨sampleTitle, rfl, by decide⟩)

/-- Claim C2: every emitted record has a name that stays non-empty under
whitespace removal, and a row whose title link is absent or whose derived
name is empty contributes zero records to the output (the extraction is a
total function, so no error can be raised). -/
theorem emitted_names_nonempty_and_nameless_rows_skipped
    (rows : List Row) (repo : Repo) (hmem : repo ∈ extractRepos rows)
    (r : Row) (hbad : r.title = none ∨ removeWSStr (titleText r) = "")
    (pre post : List Row) :
    (repo.name ≠ "" ∧ removeWSStr repo.name = repo.name) ∧
    extractRepos (pre ++ r :: post) = extractRepos (pre ++ post) := by
  constructor
  · rw [extractRepos, List.mem_filterMap] at hmem
    obtain ⟨x, hx, hex⟩ := hmem
    by_cases hc : removeWSStr (titleText x) = ""
    · rw [extractRow_eq_none x hc] at hex
      cases hex
    · rw [extractRow_eq_some x hc] at hex
      cases hex
      exact ⟨hc, removeWSStr_idem _⟩
  · have hnone : extractRow r = none := by
      apply extractRow_eq_none
      rcases hbad with h1 | h1
      · rw [show titleText r = "" from by simp [titleText, h1]]
        rfl
      · exact h1
    simp [extractRepos, List.filterMap_append, List.filterMap_cons, hnone]

/-- Witness for C2: the sample record keeps a non-empty name, and the
titleless row contributes nothing. -/
theorem emitted_names_nonempty_and_nameless_rows_skipped_witness :
    ((rowRecord sampleRow).name ≠ "" ∧
      removeWSStr (rowRecord sampleRow).name = (rowRecord sampleRow).name) ∧
    extractRepos ([] ++ badRow :: [sampleRow]) = extractRepos ([] ++ [sampleRow]) :=
  emitted_names_nonempty_and_nameless_rows_skipped [sampleRow]
    (rowRecord sampleRow) (by decide) badRow (Or.inl rfl) [] [sampleRow]

/-- Claim C3: the derived name equals the title link text with every JS
whitespace character removed, internal ones included; in particular the
title text " foo / bar " yields the name "foo/bar". -/
theorem name_removes_all_whitespace (r : Row) (t : TitleLink)
    (ht : r.title = some t) (repo : Repo) (he : extractRow r = some repo) :
    repo.name = removeWSStr t.text ∧
    repo.name.data = t.text.data.filter (fun c => !jsWS c) ∧
    removeWSStr " foo / bar " = "foo/bar" := by
  by_cases hc : removeWSStr (titleText r) = ""
  · rw [extractRow_eq_none r hc] at he
    cases he
  · rw [extractRow_eq_some r hc] at he
    cases he
    have htt : titleText r = t.text := by simp [titleText, ht]
    refine ⟨?_, ?_, by decide⟩
    · show removeWSStr (titleText r) = removeWSStr t.text
      rw [htt]
    · show (removeWSStr (titleText r)).data = _
      rw [htt]
      rfl

/-- Witness for C3 at the sample row. -/
theorem name_removes_all_whitespace_witness :
    (rowRecord sampleRow).name = removeWSStr sampleTitle.text ∧
    (rowRecord sampleRow).name.data =
      sampleTitle.text.data.filter (fun c => !jsWS c) ∧
    removeWSStr " foo / bar " = "foo/bar" :=
  name_removes_all_whitespace sampleRow sampleTitle rfl
    (rowRecord sampleRow) (by decide)

/-- Claim C4: the description and stars fields are the sub-element texts
with only leading and trailing whitespace removed: the original text is a
whitespace prefix, then the field verbatim (internal whitespace intact),
then a whitespace suffix, and the field itself neither starts nor ends
with whitespace. -/
theorem description_and_stars_trim_ends_only (r : Row) (repo : Repo)
    (he : extractRow r = some repo) :
    repo.description = jsTrimStr r.descText ∧
    repo.stars = jsTrimStr r.starsText ∧
    (∃ p q, r.descText.data = p ++ repo.description.data ++ q ∧
      p.all jsWS = true ∧ q.all jsWS = true) ∧
    (∃ p q, r.starsText.data = p ++ repo.stars.data ++ q ∧
      p.all jsWS = true ∧ q.all jsWS = true) ∧
    (∀ c, repo.description.data.head? = some c → jsWS c = false) ∧
    (∀ c, repo.description.data.getLast? = some c → jsWS c = false) ∧
    (∀ c, repo.stars.data.head? = some c → jsWS c = false) ∧
    (∀ c, repo.stars.data.getLast? = some c → jsWS c = false) := by
  by_cases hc : removeWSStr (titleText r) = ""
  · rw [extractRow_eq_none r hc] at he
    cases he
  · rw [extractRow_eq_some r hc] at he
    cases he
    refine ⟨rfl, rfl, ?_, ?_, ?_, ?_, ?_, ?_⟩
    · exact trim_decomp r.descText.data
    · exact trim_decomp r.starsText.data
    · exact fun c hch => trim_head_not_ws r.descText.data c hch
    · exact fun c hcl => trim_getLast_not_ws r.descText.data c hcl
    · exact fun c hch => trim_head_not_ws r.starsText.data c hch
    · exact fun c hcl => trim_getLast_not_ws r.starsText.data c hcl

/-- Witness for C4 at the sample row. -/
theorem description_and_stars_trim_ends_only_witness :
    (rowRecord sampleRow).description = jsTrimStr sampleRow.descText ∧
    (rowRecord sampleRow).stars = jsTrimStr sampleRow.starsText ∧
    (∃ p q, sampleRow.descText.data =
        p ++ (rowRecord sampleRow).description.data ++ q ∧
      p.all jsWS = true ∧ q.all jsWS = true) ∧
    (∃ p q, sampleRow.starsText.data =
        p ++ (rowRecord sampleRow).stars.data ++ q ∧
      p.all jsWS = true ∧ q.all jsWS = true) ∧
    (∀ c, (rowRecord sampleRow).description.data.head? = some c →
      jsWS c = false) ∧
    (∀ c, (rowRecord sampleRow).description.data.getLast? = some c →
      jsWS c = false) ∧
    (∀ c, (rowRecord sampleRow).stars.data.head? = some c →
      jsWS c = false) ∧
    (∀ c, (rowRecord sampleRow).stars.data.getLast? = some c →
      jsWS c = false) :=
  description_and_stars_trim_ends_only sampleRow (rowRecord sampleRow)
    (by decide)

/-- Claim C5: for an emitted record whose row title link carries an href
attribute, the url is the origin concatenated with that relative href; an
empty href yields the bare origin. -/
theorem url_is_origin_concat_href (r : Row) (t : TitleLink) (s : String)
    (ht : r.title = some t) (hh : t.href = some s)
    (repo : Repo) (he : extractRow r = some repo) :
    repo.url = "https://github.com" ++ s ∧
    (s = "" → repo.url = "https://github.com") := by
  by_cases hc : removeWSStr (titleText r) = ""
  · rw [extractRow_eq_none r hc] at he
    cases he
  · rw [extractRow_eq_some r hc] at he
    cases he
    have hu : (rowRecord r).url = "https://github.com" ++ s := by
      show "https://github.com" ++ jsTemplateOpt (titleHref r) = _
      rw [show titleHref r = some s from by simp [titleHref, ht, hh]]
      rfl
    refine ⟨hu, fun hs => ?_⟩
    rw [hu, hs]
    decide

/-- Witness for C5 at the sample row. -/
theorem url_is_origin_concat_href_witness :
    (rowRecord sampleRow).url = "https://github.com" ++ "/foo/bar" ∧
    ("/foo/bar" = "" → (rowRecord sampleRow).url = "https://github.com") :=
  url_is_origin_concat_href sampleRow sampleTitle "/foo/bar" rfl rfl
    (rowRecord sampleRow) (by decide)

/-- Claim C10: for an emitted record whose row title link carries no href
attribute at all, the url is the origin followed by the text "undefined",
not the bare origin. -/
theorem url_when_href_absent (r : Row) (t : TitleLink)
    (ht : r.title = some t) (hh : t.href = none)
    (repo : Repo) (he : extractRow r = some repo) :
    repo.url = "https://github.comundefined" ∧
    repo.url ≠ "https://github.com" := by
  by_cases hc : removeWSStr (titleText r) = ""
  · rw [extractRow_eq_none r hc] at he
    cases he
  · rw [extractRow_eq_some r hc] at he
    cases he
    have hu : (rowRecord r).url = "https://github.comundefined" := by
      show "https://github.com" ++ jsTemplateOpt (titleHref r) = _
      rw [show titleHref r = none from by simp [titleHref, ht, hh]]
      decide
    refine ⟨hu, ?_⟩
    rw [hu]
    decide

/-- Witness for C10 at the href-less row. -/
theorem url_when_href_absent_witness :
    (rowRecord noHrefRow).url = "https://github.comundefined" ∧
    (rowRecord noHrefRow).url ≠ "https://github.com" :=
  url_when_href_absent noHrefRow noHrefTitle rfl rfl
    (rowRecord noHrefRow) (by decide)

/-- Counterexample to claim C6: after a caught fetch error (here a 500),
zero records were extracted, yet the run prints only the progress line and
the generic error message — the nothing-found message is absent, because
`main` skips `displayRepos` when `fetchTrendingRepos` returns null. -/
theorem nothing_found_absent_after_fetch_error :
    (mainRun (some "rust") err500).events =
      [ConsoleEvent.out (buscandoMsg "rust"),
       ConsoleEvent.err (genericErrMsg "Request failed with status code 500")] ∧
    ConsoleEvent.out nothingFoundMsg ∉ (mainRun (some "rust") err500).events := by
  decide

/-- Claim C6 as amended: when the fetch succeeds and extraction yields zero
records, the run reports the nothing-found message on the output stream and
completes normally; after a caught fetch error, however, the null result
makes `main` skip the presentation step, so the nothing-found message never
appears. -/
theorem nothing_found_exactly_on_empty_extraction (lang : String)
    (rows : List Row) (hl : lang ≠ "") (hz : extractRepos rows = []) :
    (mainRun (some lang) (.success rows)).events =
      [ConsoleEvent.out (buscandoMsg (jsToLower lang)),
       ConsoleEvent.out nothingFoundMsg] ∧
    (mainRun (some lang) (.success rows)).exitCode = 0 ∧
    ∀ status message, ConsoleEvent.out nothingFoundMsg ∉
      (mainRun (some lang) (.failure status message)).events := by
  have ha : argMissing (some lang) = false := by simp [argMissing, hl]
  have hb := buscandoMsg_ne_nothingFound (jsToLower lang)
  refine ⟨?_, ?_, ?_⟩
  · simp [mainRun, ha, fetchTrendingRepos, displayRepos, hz]
  · simp [mainRun, ha]
  · intro status message
    by_cases h4 : status = some 404 <;>
      simp [mainRun, ha, fetchTrendingRepos, h4] <;>
      exact fun hcontra => hb hcontra.symm

/-- Witness for the amended C6: with a successful fetch of a single row
that has no title link, the run prints exactly the progress line and the
nothing-found line, exits 0, and no failure run prints the nothing-found
line. -/
theorem nothing_found_exactly_on_empty_extraction_witness :
    (mainRun (some "rust") (.success [badRow])).events =
      [ConsoleEvent.out (buscandoMsg (jsToLower "rust")),
       ConsoleEvent.out nothingFoundMsg] ∧
    (mainRun (some "rust") (.success [badRow])).exitCode = 0 ∧
    ∀ status message, ConsoleEvent.out nothingFoundMsg ∉
      (mainRun (some "rust") (.failure status message)).events :=
  nothing_found_exactly_on_empty_extraction "rust" [badRow]
    (by decide) (by decide)

/-- Claim C7: on an HTTP 404 for the given language the run prints exactly
the progress line and the language-specific not-found message on the error
stream, completes normally (exit 0, no repository list), and that message
differs from every instance of the generic fetch-failure message. -/
theorem language_not_found_on_404 (lang msg : String) (hl : lang ≠ "") :
    mainRun (some lang) (.failure (some 404) msg) =
      { events := [ConsoleEvent.out (buscandoMsg (jsToLower lang)),
                   ConsoleEvent.err (notFoundMsg (jsToLower lang))],
        exitCode := 0, fetched := true } ∧
    (∀ m, notFoundMsg (jsToLower lang) ≠ genericErrMsg m) := by
  have ha : argMissing (some lang) = false := by simp [argMissing, hl]
  refine ⟨?_, fun m => notFound_ne_generic _ m⟩
  simp [mainRun, ha, fetchTrendingRepos]

/-- Witness for C7 at the language of the spec example. -/
theorem language_not_found_on_404_witness :
    mainRun (some "doesnotexist123")
        (.failure (some 404) "Request failed with status code 404") =
      { events := [ConsoleEvent.out (buscandoMsg (jsToLower "doesnotexist123")),
                   ConsoleEvent.err (notFoundMsg (jsToLower "doesnotexist123"))],
        exitCode := 0, fetched := true } ∧
    (∀ m, notFoundMsg (jsToLower "doesnotexist123") ≠ genericErrMsg m) :=
  language_not_found_on_404 "doesnotexist123"
    "Request failed with status code 404" (by decide)

/-- Claim C8: with no language argument the run prints the usage error on
the error stream and the usage hint on the output stream, exits with
status 1, and performs no fetch, whatever the network would have done. -/
theorem usage_error_on_missing_argument (outcome : FetchOutcome) :
    mainRun none outcome =
      { events := [ConsoleEvent.err usageErrMsg,
                   ConsoleEvent.out usageHintMsg],
        exitCode := 1, fetched := false } := rfl

/-- Witness for C8 at a concrete fetch outcome. -/
theorem usage_error_on_missing_argument_witness :
    mainRun none (.success []) =
      { events := [ConsoleEvent.err usageErrMsg,
                   ConsoleEvent.out usageHintMsg],
        exitCode := 1, fetched := false } :=
  usage_error_on_missing_argument (.success [])

/-- Claim C9: extraction is a pure deterministic function of the markup —
two runs on the same markup give identical record sequences — and the
successful path emits no console event beyond the progress line logged
before extraction starts: extraction itself writes nothing and mutates no
state in the functional model. -/
theorem extraction_pure_and_deterministic (m₁ m₂ : List Row)
    (lang : String) (h : m₁ = m₂) :
    extractRepos m₁ = extractRepos m₂ ∧
    (fetchTrendingRepos lang (.success m₁)).1 =
      [ConsoleEvent.out (buscandoMsg lang)] := by
  subst h
  exact ⟨rfl, rfl⟩

/-- Witness for C9 at a concrete markup. -/
theorem extraction_pure_and_deterministic_witness :
    extractRepos [sampleRow] = extractRepos [sampleRow] ∧
    (fetchTrendingRepos "js" (.success [sampleRow])).1 =
      [ConsoleEvent.out (buscandoMsg "js")] :=
  extraction_pure_and_deterministic [sampleRow] [sampleRow] "js" rfl
